import Mathlib

/-!
Verification development for the SFU signaling service
(`pkg/node/sfu/service.go`).  The per-connection handler `Signal` is
embedded as a step function over explicit session and broadcaster state:
each inbound message, together with an oracle describing the Media
Engine responses for that step, yields an ordered list of observable
actions (sends on the own connection, broadcasts with their recipient
sets, registrations, Media-Engine calls) plus the updated state and a
loop outcome.
-/

namespace IonSFU

/-- Participant identifier (`uid` in the Go source). -/
abbrev UserId := String

/-- Room / session identifier (`sid` in the Go source). -/
abbrev SessionId := String

/-- Media stream identifier (`Msid` / `StreamID`). -/
abbrev StreamId := String

/-- Track identifier. -/
abbrev TrackId := String

/-- `rtc.Track`: one media track as carried in stream events. -/
structure Track where
  Id : TrackId
  Kind : String
  Muted : Bool
  Rid : String
deriving DecidableEq, Repr

/-- `rtc.Stream`: a named media bundle with an owner field `Uid`. -/
structure Stream where
  Uid : UserId
  Msid : StreamId
  Tracks : List Track
deriving DecidableEq, Repr

/-- `rtc.StreamEvent_ADD` / `rtc.StreamEvent_REMOVE`. -/
inductive StreamSt
  | ADD
  | REMOVE
deriving DecidableEq, Repr

/-- `rtc.StreamEvent`. -/
structure StreamEvent where
  State : StreamSt
  Streams : List Stream
deriving DecidableEq, Repr

/-- `rtc.Target` for outbound descriptions. -/
inductive Target
  | PUBLISHER
  | SUBSCRIBER
deriving DecidableEq, Repr

/-- Error codes from `pkg/error` used by the handler.  The two codes are
distinct numeric constants in the source. -/
inductive ErrorCode
  | InternalError
  | UnsupportedMediaType
deriving DecidableEq, Repr

/-- Distinguishable Media-Engine error conditions (`ion_sfu` errors);
`other` covers every unclassified failure. -/
inductive SFUError
  | ErrTransportExists
  | ErrOfferIgnored
  | ErrNoTransportEstablished
  | other (msg : String)
deriving DecidableEq, Repr

/-- Outbound control messages written to a connection. -/
inductive Outbound
  | reply (success : Bool)
  | streamEvent (e : StreamEvent)
  | sdp (target : Target) (sdpType : String) (body : String)
  | trickleOut (target : Nat) (cand : String)
  | errorMsg (code : ErrorCode) (reason : String)
deriving DecidableEq, Repr

/-- Observable actions of one handler run, in program order.
`send m ok` is a `sigStream.Send` on the own connection together with
whether that send succeeded; `broadcast e recips` is one
`BroadcastStreamEvent` call recording the registered sinks it wrote to. -/
inductive Action
  | send (m : Outbound) (ok : Bool)
  | broadcast (e : StreamEvent) (recipients : List UserId)
  | register (id : UserId)
  | unregister (id : UserId)
  | peerJoin (sid : SessionId) (uid : UserId)
  | peerAnswer (body : String)
  | peerSetRemote (body : String)
  | peerTrickle (target : Nat)
  | peerClose
  | addDownTrack (trackId : TrackId)
  | removeDownTrack (streamId : StreamId) (trackId : TrackId)
  | negotiate
deriving DecidableEq, Repr

/-- One published track of a room participant as exposed by
`Publisher().PublisherTracks()`: the wire-level `Track` attributes plus
the receiver track identifier used by subscription matching. -/
structure PublisherTrack where
  trackId : TrackId
  streamId : StreamId
  kind : String
  rid : String
  receiverTrackId : TrackId
deriving DecidableEq, Repr

/-- One participant of the room as exposed by `Session().Peers()`. -/
structure PeerInfo where
  pid : UserId
  tracks : List PublisherTrack
deriving DecidableEq, Repr

/-- Oracle for one message step: the results the external collaborators
(Media Engine, JSON parsing, `ParseSDP`, the gRPC sink) return during
that step.  `sendErr n` is the failure of the n-th send the handler
performs on its own connection in this step. -/
structure MediaEnv where
  joinErr : Option SFUError
  peers : List PeerInfo
  answerResult : Except SFUError String
  setRemoteErr : Option SFUError
  trickleErr : Option SFUError
  candidateOk : Bool
  parsedStreams : Option (List Stream)
  downTracks : List (StreamId × List TrackId)
  sendErr : Nat → Option String

/-- Per-connection handler state: the peer session once `Join`
succeeded, and the `streams` local variable that caches the streams
most recently broadcast as ADD. -/
structure SessState where
  session : Option (SessionId × UserId)
  streams : List Stream

/-- Handler state together with the shared broadcaster map (modelled as
the list of registered participant identifiers, one sink each). -/
structure LoopState where
  sess : SessState
  sigs : List UserId

/-- gRPC status codes the handler returns with. -/
inductive StatusCode
  | Internal
  | Unknown
deriving DecidableEq, Repr

/-- Outcome of one message step: continue the loop or return a status. -/
inductive Outcome
  | next
  | terminate (c : StatusCode)
deriving DecidableEq, Repr

/-- Result of handling one inbound message. -/
structure StepResult where
  actions : List Action
  sess : SessState
  sigs : List UserId
  outcome : Outcome

/-- `webrtc.NewSDPType`: string to SDP type, unknown strings map to an
unknown type. -/
inductive SDPType
  | offer
  | pranswer
  | answer
  | rollback
  | unknown
deriving DecidableEq, Repr

/-- String decoding of SDP types as done by `webrtc.NewSDPType`. -/
def NewSDPType (s : String) : SDPType :=
  if s = "offer" then SDPType.offer
  else if s = "pranswer" then SDPType.pranswer
  else if s = "answer" then SDPType.answer
  else if s = "rollback" then SDPType.rollback
  else SDPType.unknown

/-- `s.sigs[id] = sigStream`: map assignment on the broadcaster. -/
def registerSig (sigs : List UserId) (id : UserId) : List UserId :=
  if id ∈ sigs then sigs else sigs ++ [id]

/-- `BroadcastStreamEvent`: under the mutex, send the event to every
registered sink; recorded as one action carrying the recipient set. -/
def BroadcastStreamEvent (sigs : List UserId) (event : StreamEvent) : Action :=
  Action.broadcast event sigs

/-- Insert one track into the `streamMap` grouping of the Join snapshot,
preserving first-seen stream order.  Mirrors the map-lookup-or-create
plus `stream.Tracks = append(...)` of the source. -/
def insertTrack (acc : List Stream) (uid : UserId) (streamId : StreamId)
    (t : Track) : List Stream :=
  match acc with
  | [] => [⟨uid, streamId, [t]⟩]
  | s :: rest =>
    if s.Msid = streamId then ⟨s.Uid, s.Msid, s.Tracks ++ [t]⟩ :: rest
    else s :: insertTrack rest uid streamId t

/-- The initial snapshot computed during Join: group the published
tracks of every participant other than the joining peer by stream
identifier.  As in the source, every created `Stream` carries `uid`
(the joining participant) in its `Uid` field. -/
def snapshotStreams (uid : UserId) (peers : List PeerInfo) : List Stream :=
  peers.foldl
    (fun acc p =>
      if uid ≠ p.pid then
        p.tracks.foldl
          (fun a tr =>
            insertTrack a uid tr.streamId ⟨tr.trackId, tr.kind, false, tr.rid⟩)
          acc
      else acc)
    []

/-- Tail of the Join handler shared by the success path and the
recognized-error path that falls through after its Error send: the
`Reply(success=true)` send (result ignored), the initial snapshot send
(result ignored), then the registration of the sink.  `pre` are the
actions already performed, `k` the number of sends already counted. -/
def joinBody (env : MediaEnv) (sess1 : SessState) (sigs : List UserId)
    (uid : UserId) (pre : List Action) (k : Nat) : StepResult :=
  let snap := snapshotStreams uid env.peers
  let replyOk := (env.sendErr k).isNone
  let snapOk := (env.sendErr (k + 1)).isNone
  { actions := pre ++
      [Action.send (Outbound.reply true) replyOk,
       Action.send (Outbound.streamEvent ⟨StreamSt.ADD, snap⟩) snapOk,
       Action.register uid]
    sess := sess1
    sigs := registerSig sigs uid
    outcome := Outcome.next }

/-- The `rtc.Signalling_Join` case of `Signal`. -/
def handleJoin (env : MediaEnv) (sess : SessState) (sigs : List UserId)
    (sid : SessionId) (uid : UserId) : StepResult :=
  match env.joinErr with
  | none =>
    joinBody env { sess with session := some (sid, uid) } sigs uid
      [Action.peerJoin sid uid] 0
  | some e =>
    if e = SFUError.ErrTransportExists ∨ e = SFUError.ErrOfferIgnored then
      match env.sendErr 0 with
      | some _ =>
        { actions := [Action.peerJoin sid uid,
            Action.send (Outbound.errorMsg ErrorCode.InternalError "join error") false]
          sess := sess
          sigs := sigs
          outcome := Outcome.terminate StatusCode.Internal }
      | none =>
        joinBody env sess sigs uid
          [Action.peerJoin sid uid,
           Action.send (Outbound.errorMsg ErrorCode.InternalError "join error") true] 1
    else
      { actions := [Action.peerJoin sid uid]
        sess := sess
        sigs := sigs
        outcome := Outcome.terminate StatusCode.Unknown }

/-- The `rtc.Signalling_Description` case of `Signal`.  Note the
source-level scoping: the error of the offer branch is a fresh variable,
so the trailing no-transport check only ever sees the answer branch. -/
def handleDescription (env : MediaEnv) (sess : SessState) (sigs : List UserId)
    (body : String) (sdpType : String) : StepResult :=
  match NewSDPType sdpType with
  | SDPType.offer =>
    match env.answerResult with
    | Except.error _ =>
      { actions := [Action.peerAnswer body]
        sess := sess
        sigs := sigs
        outcome := Outcome.terminate StatusCode.Internal }
    | Except.ok answerBody =>
      let sendOk := (env.sendErr 0).isNone
      let sendAct := Action.send (Outbound.sdp Target.PUBLISHER "answer" answerBody) sendOk
      if sendOk then
        let newStreams := env.parsedStreams.getD []
        if newStreams.isEmpty then
          { actions := [Action.peerAnswer body, sendAct]
            sess := sess
            sigs := sigs
            outcome := Outcome.next }
        else
          { actions := [Action.peerAnswer body, sendAct,
              BroadcastStreamEvent sigs ⟨StreamSt.ADD, newStreams⟩]
            sess := { sess with streams := newStreams }
            sigs := sigs
            outcome := Outcome.next }
      else
        { actions := [Action.peerAnswer body, sendAct]
          sess := sess
          sigs := sigs
          outcome := Outcome.terminate StatusCode.Internal }
  | SDPType.answer =>
    match env.setRemoteErr with
    | none =>
      { actions := [Action.peerSetRemote body]
        sess := sess
        sigs := sigs
        outcome := Outcome.next }
    | some SFUError.ErrNoTransportEstablished =>
      let sendOk := (env.sendErr 0).isNone
      { actions := [Action.peerSetRemote body,
          Action.send
            (Outbound.errorMsg ErrorCode.UnsupportedMediaType "set remote description error")
            sendOk]
        sess := sess
        sigs := sigs
        outcome := if sendOk then Outcome.next else Outcome.terminate StatusCode.Internal }
    | some _ =>
      { actions := [Action.peerSetRemote body]
        sess := sess
        sigs := sigs
        outcome := Outcome.terminate StatusCode.Unknown }
  | _ =>
    { actions := []
      sess := sess
      sigs := sigs
      outcome := Outcome.next }

/-- The `rtc.Signalling_Trickle` case of `Signal`. -/
def handleTrickle (env : MediaEnv) (sess : SessState) (sigs : List UserId)
    (target : Nat) : StepResult :=
  if env.candidateOk then
    match env.trickleErr with
    | none =>
      { actions := [Action.peerTrickle target]
        sess := sess
        sigs := sigs
        outcome := Outcome.next }
    | some SFUError.ErrNoTransportEstablished =>
      let sendOk := (env.sendErr 0).isNone
      { actions := [Action.peerTrickle target,
          Action.send (Outbound.errorMsg ErrorCode.InternalError "trickle error") sendOk]
        sess := sess
        sigs := sigs
        outcome := if sendOk then Outcome.next else Outcome.terminate StatusCode.Internal }
    | some _ =>
      { actions := [Action.peerTrickle target]
        sess := sess
        sigs := sigs
        outcome := Outcome.terminate StatusCode.Unknown }
  else
    let sendOk := (env.sendErr 0).isNone
    { actions := [Action.send
        (Outbound.errorMsg ErrorCode.InternalError "unmarshal ice candidate error") sendOk]
      sess := sess
      sigs := sigs
      outcome := if sendOk then Outcome.next else Outcome.terminate StatusCode.Internal }

/-- Subscription, subscribe=true, inner loop over one peer:
`AddDownTrack` for every published track whose receiver matches. -/
def trackAdds (tid : TrackId) : List PublisherTrack → List Action
  | [] => []
  | tr :: trs =>
    (if tr.receiverTrackId = tid then [Action.addDownTrack tid] else []) ++
      trackAdds tid trs

/-- Subscription, subscribe=true, loop over all other participants. -/
def peerAdds (selfId : UserId) (tid : TrackId) : List PeerInfo → List Action
  | [] => []
  | p :: ps =>
    (if p.pid ≠ selfId then trackAdds tid p.tracks else []) ++
      peerAdds selfId tid ps

/-- Subscription, subscribe=false, inner loop over the down tracks of
one stream: remove and stop every down track matching the identifier. -/
def trackRemoves (tid : TrackId) (streamId : StreamId) : List TrackId → List Action
  | [] => []
  | dt :: dts =>
    (if dt = tid then [Action.removeDownTrack streamId tid] else []) ++
      trackRemoves tid streamId dts

/-- Subscription, subscribe=false, loop over the subscriber down tracks. -/
def downTrackRemoves (tid : TrackId) : List (StreamId × List TrackId) → List Action
  | [] => []
  | e :: es => trackRemoves tid e.1 e.2 ++ downTrackRemoves tid es

/-- Outer loop of the Subscription handler over the requested track
identifiers. -/
def subscriptionActs (env : MediaEnv) (selfId : UserId) (subscribe : Bool) :
    List TrackId → List Action
  | [] => []
  | tid :: tids =>
    (if subscribe then peerAdds selfId tid env.peers
     else downTrackRemoves tid env.downTracks) ++
      subscriptionActs env selfId subscribe tids

/-- The `rtc.Signalling_UpdateSettings` Subscription case of `Signal`:
process the full track list, then negotiate once if and only if at
least one forwarding path was added or removed. -/
def handleSubscription (env : MediaEnv) (sess : SessState) (sigs : List UserId)
    (trackIds : List TrackId) (subscribe : Bool) : StepResult :=
  let selfId := (sess.session.map Prod.snd).getD ""
  let acts := subscriptionActs env selfId subscribe trackIds
  { actions := acts ++ (if acts.isEmpty then [] else [Action.negotiate])
    sess := sess
    sigs := sigs
    outcome := Outcome.next }

/-- Inbound control messages (`rtc.Signalling` payload cases). -/
inductive Inbound
  | join (sid : SessionId) (uid : UserId)
  | desc (target : Target) (sdpType : String) (body : String)
  | trickleIn (target : Nat) (cand : String)
  | subscription (trackIds : List TrackId) (subscribe : Bool)

/-- Dispatch of one inbound message (the payload type switch). -/
def stepMsg (env : MediaEnv) (sess : SessState) (sigs : List UserId) :
    Inbound → StepResult
  | Inbound.join sid uid => handleJoin env sess sigs sid uid
  | Inbound.desc _ sdpType body => handleDescription env sess sigs body sdpType
  | Inbound.trickleIn target _ => handleTrickle env sess sigs target
  | Inbound.subscription trackIds subscribe =>
    handleSubscription env sess sigs trackIds subscribe

/-- What one `sigStream.Recv()` call yields. -/
inductive RecvResult
  | msg (m : Inbound)
  | eof
  | canceled
  | failure (message : String)

/-- How the handler ultimately returns to the transport layer;
`stillRunning` marks a finite trace that ends before the loop exits. -/
inductive FinalStatus
  | clean
  | transportErr (message : String)
  | grpcErr (c : StatusCode)
  | stillRunning
deriving DecidableEq, Repr

/-- One iteration of the receive loop: a failed `Recv` closes the peer
and exits (cleanly on end-of-stream or cancellation, otherwise
propagating the transport error); a received message is dispatched. -/
def stepRecv (env : MediaEnv) (st : LoopState) :
    RecvResult → List Action × LoopState × Option FinalStatus
  | RecvResult.eof => ([Action.peerClose], st, some FinalStatus.clean)
  | RecvResult.canceled => ([Action.peerClose], st, some FinalStatus.clean)
  | RecvResult.failure m => ([Action.peerClose], st, some (FinalStatus.transportErr m))
  | RecvResult.msg m =>
    let r := stepMsg env st.sess st.sigs m
    match r.outcome with
    | Outcome.next => (r.actions, ⟨r.sess, r.sigs⟩, none)
    | Outcome.terminate c => (r.actions, ⟨r.sess, r.sigs⟩, some (FinalStatus.grpcErr c))

/-- The receive loop of `Signal`, run over a finite trace of `Recv`
results, each paired with the oracle for that step. -/
def runLoop : List (RecvResult × MediaEnv) → LoopState →
    List Action × LoopState × FinalStatus
  | [], st => ([], st, FinalStatus.stillRunning)
  | (r, env) :: rest, st =>
    match stepRecv env st r with
    | (acts, st1, some fs) => (acts, st1, fs)
    | (acts, st1, none) =>
      let t := runLoop rest st1
      (acts ++ t.1, t.2.1, t.2.2)

/-- The deferred cleanup of `Signal`: if the peer has a session, delete
this participant from the broadcaster map and, if it had contributed
streams, broadcast their removal to the remaining sinks. -/
def cleanup (st : LoopState) : List Action × LoopState :=
  match st.sess.session with
  | none => ([], st)
  | some su =>
    let sigs1 := st.sigs.erase su.2
    ([Action.unregister su.2] ++
      (if st.sess.streams.isEmpty then []
       else [BroadcastStreamEvent sigs1 ⟨StreamSt.REMOVE, st.sess.streams⟩]),
     ⟨st.sess, sigs1⟩)

/-- `Signal` on a finite trace: the receive loop followed, whenever the
loop actually returns, by the deferred cleanup. -/
def Signal (trace : List (RecvResult × MediaEnv)) (st : LoopState) :
    List Action × LoopState × FinalStatus :=
  let r := runLoop trace st
  match r.2.2 with
  | FinalStatus.stillRunning => r
  | fs =>
    let c := cleanup r.2.1
    (r.1 ++ c.1, c.2, fs)

/-- `Signal` as invoked for a fresh connection: no session yet and an
empty contributed-streams cache, over the current broadcaster map. -/
def SignalHandler (trace : List (RecvResult × MediaEnv)) (sigs0 : List UserId) :
    List Action × LoopState × FinalStatus :=
  Signal trace ⟨⟨none, []⟩, sigs0⟩

/-- One fold step of `lastAddFrom`: an ADD broadcast overwrites the
accumulator, everything else keeps it. -/
def lastAddStep (acc : Option (List Stream)) (a : Action) : Option (List Stream) :=
  match a with
  | Action.broadcast e _ => if e.State = StreamSt.ADD then some e.Streams else acc
  | _ => acc

/-- The streams of the last ADD broadcast in an action list, folded from
a given earlier value. -/
def lastAddFrom (acc : Option (List Stream)) (acts : List Action) :
    Option (List Stream) :=
  acts.foldl lastAddStep acc

/-- The streams of the last ADD broadcast in an action list, if any. -/
def lastAddStreams (acts : List Action) : Option (List Stream) :=
  lastAddFrom none acts

/-- The stream lists carried by REMOVE broadcasts in an action list. -/
def removeBroadcasts (acts : List Action) : List (List Stream) :=
  acts.filterMap
    (fun a =>
      match a with
      | Action.broadcast ⟨StreamSt.REMOVE, ss⟩ _ => some ss
      | _ => none)

/-- The error codes of Error messages sent on the own connection. -/
def errorCodesSent (acts : List Action) : List ErrorCode :=
  acts.filterMap
    (fun a =>
      match a with
      | Action.send (Outbound.errorMsg c _) _ => some c
      | _ => none)

/-- Whether an action is a broadcast. -/
def isBroadcastAct : Action → Bool
  | Action.broadcast _ _ => true
  | _ => false

/-- Actions a message step may emit: anything except closing the peer,
unregistering a sink, or broadcasting a REMOVE event (those happen only
in the receive-error path and the deferred cleanup). -/
def msgActOK : Action → Bool
  | Action.peerClose => false
  | Action.unregister _ => false
  | Action.broadcast e _ =>
    match e.State with
    | StreamSt.ADD => true
    | StreamSt.REMOVE => false
  | _ => true

/-- A neutral oracle used to build concrete test environments. -/
def envBase : MediaEnv :=
  { joinErr := none
    peers := []
    answerResult := Except.ok "answer-sdp"
    setRemoteErr := none
    trickleErr := none
    candidateOk := true
    parsedStreams := none
    downTracks := []
    sendErr := fun _ => none }

theorem lastAddFrom_append (acc : Option (List Stream)) (l1 l2 : List Action) :
    lastAddFrom acc (l1 ++ l2) = lastAddFrom (lastAddFrom acc l1) l2 := by
  unfold lastAddFrom
  rw [List.foldl_append]

theorem lastAddFrom_concat (acc : Option (List Stream)) (l : List Action) (a : Action) :
    lastAddFrom acc (l ++ [a]) = lastAddStep (lastAddFrom acc l) a := by
  rw [lastAddFrom_append]
  rfl

theorem lastAddFrom_acc (l : List Action) :
    ∀ acc : Option (List Stream),
      lastAddFrom acc l =
        match lastAddFrom none l with
        | some s => some s
        | none => acc := by
  induction l using List.reverseRecOn with
  | nil => intro acc; rfl
  | append_singleton l a ih =>
    intro acc
    rw [lastAddFrom_concat, lastAddFrom_concat, ih acc]
    match a with
    | Action.broadcast e r =>
      by_cases h : e.State = StreamSt.ADD
      · simp [lastAddStep, h]
      · cases lastAddFrom none l <;> simp [lastAddStep, h]
    | Action.send m ok => cases lastAddFrom none l <;> rfl
    | Action.register i => cases lastAddFrom none l <;> rfl
    | Action.unregister i => cases lastAddFrom none l <;> rfl
    | Action.peerJoin s u => cases lastAddFrom none l <;> rfl
    | Action.peerAnswer b => cases lastAddFrom none l <;> rfl
    | Action.peerSetRemote b => cases lastAddFrom none l <;> rfl
    | Action.peerTrickle t => cases lastAddFrom none l <;> rfl
    | Action.peerClose => cases lastAddFrom none l <;> rfl
    | Action.addDownTrack t => cases lastAddFrom none l <;> rfl
    | Action.removeDownTrack s t => cases lastAddFrom none l <;> rfl
    | Action.negotiate => cases lastAddFrom none l <;> rfl

theorem lastAddStep_of_not_broadcast (acc : Option (List Stream)) (a : Action)
    (h : isBroadcastAct a = false) : lastAddStep acc a = acc := by
  match a with
  | Action.broadcast e r => simp [isBroadcastAct] at h
  | Action.send m ok => rfl
  | Action.register i => rfl
  | Action.unregister i => rfl
  | Action.peerJoin s u => rfl
  | Action.peerAnswer b => rfl
  | Action.peerSetRemote b => rfl
  | Action.peerTrickle t => rfl
  | Action.peerClose => rfl
  | Action.addDownTrack t => rfl
  | Action.removeDownTrack s t => rfl
  | Action.negotiate => rfl

theorem lastAddFrom_of_broadcastFree (l : List Action)
    (h : ∀ a ∈ l, isBroadcastAct a = false) :
    ∀ acc : Option (List Stream), lastAddFrom acc l = acc := by
  induction l with
  | nil => intro acc; rfl
  | cons a l ih =>
    intro acc
    have ha : isBroadcastAct a = false := h a (List.mem_cons_self a l)
    have hl : ∀ x ∈ l, isBroadcastAct x = false :=
      fun x hx => h x (List.mem_cons_of_mem a hx)
    have hstep : lastAddFrom acc (a :: l) = lastAddFrom (lastAddStep acc a) l := rfl
    rw [hstep, lastAddStep_of_not_broadcast acc a ha]
    exact ih hl acc

theorem lastAdd_append_getD (l1 l2 : List Action) (d : List Stream) :
    (lastAddStreams (l1 ++ l2)).getD d =
      (lastAddStreams l2).getD ((lastAddStreams l1).getD d) := by
  unfold lastAddStreams
  rw [lastAddFrom_append, lastAddFrom_acc l2 (lastAddFrom none l1)]
  cases lastAddFrom none l2 <;> simp

theorem removeBroadcasts_append (l1 l2 : List Action) :
    removeBroadcasts (l1 ++ l2) = removeBroadcasts l1 ++ removeBroadcasts l2 := by
  unfold removeBroadcasts
  rw [List.filterMap_append]

theorem removeBroadcasts_of_msgActOK (l : List Action)
    (h : ∀ a ∈ l, msgActOK a = true) : removeBroadcasts l = [] := by
  unfold removeBroadcasts
  rw [List.filterMap_eq_nil_iff]
  intro a ha
  have hok := h a ha
  match a with
  | Action.broadcast ⟨StreamSt.ADD, ss⟩ r => rfl
  | Action.broadcast ⟨StreamSt.REMOVE, ss⟩ r => simp [msgActOK] at hok
  | Action.send m ok => rfl
  | Action.register i => rfl
  | Action.unregister i => rfl
  | Action.peerJoin s u => rfl
  | Action.peerAnswer b => rfl
  | Action.peerSetRemote b => rfl
  | Action.peerTrickle t => rfl
  | Action.peerClose => rfl
  | Action.addDownTrack t => rfl
  | Action.removeDownTrack s t => rfl
  | Action.negotiate => rfl

theorem mem_trackAdds (tid : TrackId) (trs : List PublisherTrack) :
    ∀ a ∈ trackAdds tid trs, a = Action.addDownTrack tid := by
  induction trs with
  | nil => intro a ha; simp [trackAdds] at ha
  | cons tr trs ih =>
    intro a ha
    by_cases h : tr.receiverTrackId = tid
    · simp only [trackAdds, h, if_true, List.cons_append, List.nil_append,
        List.mem_cons] at ha
      rcases ha with rfl | ha
      · rfl
      · exact ih a ha
    · simp only [trackAdds, h, if_false, List.nil_append] at ha
      exact ih a ha

theorem mem_peerAdds (selfId : UserId) (tid : TrackId) (ps : List PeerInfo) :
    ∀ a ∈ peerAdds selfId tid ps, a = Action.addDownTrack tid := by
  induction ps with
  | nil => intro a ha; simp [peerAdds] at ha
  | cons p ps ih =>
    intro a ha
    simp only [peerAdds, List.mem_append] at ha
    rcases ha with ha | ha
    · by_cases h : p.pid = selfId
      · simp [h] at ha
      · simp only [h, ne_eq, not_false_iff, if_true] at ha
        exact mem_trackAdds tid p.tracks a ha
    · exact ih a ha

theorem mem_trackRemoves (tid : TrackId) (streamId : StreamId) (dts : List TrackId) :
    ∀ a ∈ trackRemoves tid streamId dts, a = Action.removeDownTrack streamId tid := by
  induction dts with
  | nil => intro a ha; simp [trackRemoves] at ha
  | cons dt dts ih =>
    intro a ha
    by_cases h : dt = tid
    · simp only [trackRemoves, h, if_true, List.cons_append, List.nil_append,
        List.mem_cons] at ha
      rcases ha with rfl | ha
      · rfl
      · exact ih a ha
    · simp only [trackRemoves, h, if_false, List.nil_append] at ha
      exact ih a ha

theorem mem_downTrackRemoves (tid : TrackId) (es : List (StreamId × List TrackId)) :
    ∀ a ∈ downTrackRemoves tid es, ∃ s, a = Action.removeDownTrack s tid := by
  induction es with
  | nil => intro a ha; simp [downTrackRemoves] at ha
  | cons e es ih =>
    intro a ha
    simp only [downTrackRemoves, List.mem_append] at ha
    rcases ha with ha | ha
    · exact ⟨e.1, mem_trackRemoves tid e.1 e.2 a ha⟩
    · exact ih a ha

theorem mem_subscriptionActs (env : MediaEnv) (selfId : UserId) (subscribe : Bool)
    (tids : List TrackId) :
    ∀ a ∈ subscriptionActs env selfId subscribe tids,
      (∃ t, a = Action.addDownTrack t) ∨ ∃ s t, a = Action.removeDownTrack s t := by
  induction tids with
  | nil => intro a ha; simp [subscriptionActs] at ha
  | cons tid tids ih =>
    intro a ha
    simp only [subscriptionActs, List.mem_append] at ha
    rcases ha with ha | ha
    · cases subscribe with
      | true =>
        rw [if_pos rfl] at ha
        exact Or.inl ⟨tid, mem_peerAdds selfId tid env.peers a ha⟩
      | false =>
        rw [if_neg (by simp)] at ha
        obtain ⟨s, hs⟩ := mem_downTrackRemoves tid env.downTracks a ha
        exact Or.inr ⟨s, tid, hs⟩
    · exact ih a ha

theorem trackAdds_eq_nil (tid : TrackId) (trs : List PublisherTrack) :
    trackAdds tid trs = [] ↔ ∀ tr ∈ trs, tr.receiverTrackId ≠ tid := by
  induction trs with
  | nil => simp [trackAdds]
  | cons tr trs ih =>
    by_cases h : tr.receiverTrackId = tid <;> simp [trackAdds, h, ih]

theorem peerAdds_eq_nil (selfId : UserId) (tid : TrackId) (ps : List PeerInfo) :
    peerAdds selfId tid ps = [] ↔
      ∀ p ∈ ps, p.pid ≠ selfId → ∀ tr ∈ p.tracks, tr.receiverTrackId ≠ tid := by
  induction ps with
  | nil => simp [peerAdds]
  | cons p ps ih =>
    by_cases h : p.pid = selfId
    · simp [peerAdds, h, ih]
    · simp [peerAdds, h, ih, trackAdds_eq_nil]

theorem trackRemoves_eq_nil (tid : TrackId) (streamId : StreamId) (dts : List TrackId) :
    trackRemoves tid streamId dts = [] ↔ ∀ dt ∈ dts, dt ≠ tid := by
  induction dts with
  | nil => simp [trackRemoves]
  | cons dt dts ih =>
    by_cases h : dt = tid <;> simp [trackRemoves, h, ih]

theorem downTrackRemoves_eq_nil (tid : TrackId) (es : List (StreamId × List TrackId)) :
    downTrackRemoves tid es = [] ↔ ∀ e ∈ es, ∀ dt ∈ e.2, dt ≠ tid := by
  induction es with
  | nil => simp [downTrackRemoves]
  | cons e es ih =>
    simp [downTrackRemoves, ih, trackRemoves_eq_nil]

theorem subscriptionActs_true_eq_nil (env : MediaEnv) (selfId : UserId)
    (tids : List TrackId) :
    subscriptionActs env selfId true tids = [] ↔
      ∀ tid ∈ tids, peerAdds selfId tid env.peers = [] := by
  induction tids with
  | nil => simp [subscriptionActs]
  | cons tid tids ih =>
    simp [subscriptionActs, ih]

theorem subscriptionActs_false_eq_nil (env : MediaEnv) (selfId : UserId)
    (tids : List TrackId) :
    subscriptionActs env selfId false tids = [] ↔
      ∀ tid ∈ tids, downTrackRemoves tid env.downTracks = [] := by
  induction tids with
  | nil => simp [subscriptionActs]
  | cons tid tids ih =>
    simp [subscriptionActs, ih]

theorem handleJoin_actions_ok (env : MediaEnv) (sess : SessState) (sigs : List UserId)
    (sid : SessionId) (uid : UserId) :
    ∀ a ∈ (handleJoin env sess sigs sid uid).actions, msgActOK a = true := by
  intro a ha
  cases h : env.joinErr with
  | none =>
    simp only [handleJoin, h, joinBody, List.cons_append, List.nil_append,
      List.mem_cons, List.not_mem_nil, or_false] at ha
    rcases ha with rfl | rfl | rfl | rfl <;> rfl
  | some e =>
    by_cases hr : e = SFUError.ErrTransportExists ∨ e = SFUError.ErrOfferIgnored
    · cases hs : env.sendErr 0 with
      | some m =>
        simp only [handleJoin, h, hr, if_true, hs, List.mem_cons,
          List.not_mem_nil, or_false] at ha
        rcases ha with rfl | rfl <;> rfl
      | none =>
        simp only [handleJoin, h, hr, if_true, hs, joinBody, List.cons_append,
          List.nil_append, List.mem_cons, List.not_mem_nil, or_false] at ha
        rcases ha with rfl | rfl | rfl | rfl | rfl <;> rfl
    · simp only [handleJoin, h, hr, if_false, List.mem_cons,
        List.not_mem_nil, or_false] at ha
      subst ha; rfl

theorem handleDescription_actions_ok (env : MediaEnv) (sess : SessState)
    (sigs : List UserId) (body : String) (sdpType : String) :
    ∀ a ∈ (handleDescription env sess sigs body sdpType).actions, msgActOK a = true := by
  intro a ha
  unfold handleDescription at ha
  cases hty : NewSDPType sdpType with
  | offer =>
    rw [hty] at ha
    cases har : env.answerResult with
    | error e =>
      rw [har] at ha
      simp only [List.mem_cons, List.not_mem_nil, or_false] at ha
      subst ha; rfl
    | ok ans =>
      rw [har] at ha
      cases hs : env.sendErr 0 with
      | some m =>
        simp only [hs, Option.isNone_some, Bool.false_eq_true, if_false,
          List.mem_cons, List.not_mem_nil, or_false] at ha
        rcases ha with rfl | rfl <;> rfl
      | none =>
        by_cases hne : (env.parsedStreams.getD []).isEmpty
        · simp only [hs, Option.isNone_none, if_true, hne, List.mem_cons,
            List.not_mem_nil, or_false] at ha
          rcases ha with rfl | rfl <;> rfl
        · simp only [hs, Option.isNone_none, if_true, hne, Bool.false_eq_true,
            if_false, BroadcastStreamEvent, List.mem_cons,
            List.not_mem_nil, or_false] at ha
          rcases ha with rfl | rfl | rfl <;> rfl
  | answer =>
    rw [hty] at ha
    cases hsr : env.setRemoteErr with
    | none =>
      rw [hsr] at ha
      simp only [List.mem_cons, List.not_mem_nil, or_false] at ha
      subst ha; rfl
    | some e =>
      rw [hsr] at ha
      cases e with
      | ErrNoTransportEstablished =>
        simp only [List.mem_cons, List.not_mem_nil, or_false] at ha
        rcases ha with rfl | rfl <;> rfl
      | ErrTransportExists =>
        simp only [List.mem_cons, List.not_mem_nil, or_false] at ha
        subst ha; rfl
      | ErrOfferIgnored =>
        simp only [List.mem_cons, List.not_mem_nil, or_false] at ha
        subst ha; rfl
      | other m =>
        simp only [List.mem_cons, List.not_mem_nil, or_false] at ha
        subst ha; rfl
  | pranswer =>
    rw [hty] at ha
    simp at ha
  | rollback =>
    rw [hty] at ha
    simp at ha
  | unknown =>
    rw [hty] at ha
    simp at ha

theorem handleTrickle_actions_ok (env : MediaEnv) (sess : SessState)
    (sigs : List UserId) (target : Nat) :
    ∀ a ∈ (handleTrickle env sess sigs target).actions, msgActOK a = true := by
  intro a ha
  unfold handleTrickle at ha
  cases hc : env.candidateOk with
  | false =>
    rw [hc] at ha
    simp only [Bool.false_eq_true, if_false, List.mem_cons,
      List.not_mem_nil, or_false] at ha
    subst ha; rfl
  | true =>
    rw [hc] at ha
    simp only [if_true] at ha
    cases ht : env.trickleErr with
    | none =>
      rw [ht] at ha
      simp only [List.mem_cons, List.not_mem_nil, or_false] at ha
      subst ha; rfl
    | some e =>
      rw [ht] at ha
      cases e with
      | ErrNoTransportEstablished =>
        simp only [List.mem_cons, List.not_mem_nil, or_false] at ha
        rcases ha with rfl | rfl <;> rfl
      | ErrTransportExists =>
        simp only [List.mem_cons, List.not_mem_nil, or_false] at ha
        subst ha; rfl
      | ErrOfferIgnored =>
        simp only [List.mem_cons, List.not_mem_nil, or_false] at ha
        subst ha; rfl
      | other m =>
        simp only [List.mem_cons, List.not_mem_nil, or_false] at ha
        subst ha; rfl

theorem handleSubscription_actions_ok (env : MediaEnv) (sess : SessState)
    (sigs : List UserId) (trackIds : List TrackId) (subscribe : Bool) :
    ∀ a ∈ (handleSubscription env sess sigs trackIds subscribe).actions,
      msgActOK a = true := by
  intro a ha
  unfold handleSubscription at ha
  simp only [List.mem_append] at ha
  rcases ha with ha | ha
  · rcases mem_subscriptionActs env _ subscribe trackIds a ha with ⟨t, rfl⟩ | ⟨s, t, rfl⟩ <;> rfl
  · by_cases hne : (subscriptionActs env ((sess.session.map Prod.snd).getD "") subscribe trackIds).isEmpty
    · rw [if_pos hne] at ha
      simp at ha
    · rw [if_neg hne] at ha
      simp only [List.mem_cons, List.not_mem_nil, or_false] at ha
      subst ha; rfl

theorem stepMsg_actions_ok (env : MediaEnv) (sess : SessState) (sigs : List UserId)
    (m : Inbound) :
    ∀ a ∈ (stepMsg env sess sigs m).actions, msgActOK a = true := by
  cases m with
  | join sid uid => exact handleJoin_actions_ok env sess sigs sid uid
  | desc t sdpType body => exact handleDescription_actions_ok env sess sigs body sdpType
  | trickleIn t c => exact handleTrickle_actions_ok env sess sigs t
  | subscription tids b => exact handleSubscription_actions_ok env sess sigs tids b

theorem handleJoin_streams (env : MediaEnv) (sess : SessState) (sigs : List UserId)
    (sid : SessionId) (uid : UserId) :
    (handleJoin env sess sigs sid uid).sess.streams = sess.streams ∧
    lastAddStreams (handleJoin env sess sigs sid uid).actions = none := by
  cases h : env.joinErr with
  | none =>
    simp [handleJoin, h, joinBody, lastAddStreams, lastAddFrom, lastAddStep]
  | some e =>
    by_cases hr : e = SFUError.ErrTransportExists ∨ e = SFUError.ErrOfferIgnored
    · cases hs : env.sendErr 0 with
      | some m =>
        simp [handleJoin, h, hr, hs, lastAddStreams, lastAddFrom, lastAddStep]
      | none =>
        simp [handleJoin, h, hr, hs, joinBody, lastAddStreams, lastAddFrom, lastAddStep]
    · simp [handleJoin, h, hr, lastAddStreams, lastAddFrom, lastAddStep]

theorem handleDescription_streams (env : MediaEnv) (sess : SessState)
    (sigs : List UserId) (body : String) (sdpType : String) :
    (handleDescription env sess sigs body sdpType).sess.streams =
      (lastAddStreams (handleDescription env sess sigs body sdpType).actions).getD
        sess.streams := by
  unfold handleDescription
  cases hty : NewSDPType sdpType with
  | offer =>
    cases har : env.answerResult with
    | error e => simp [lastAddStreams, lastAddFrom, lastAddStep]
    | ok ans =>
      cases hs : env.sendErr 0 with
      | some m => simp [lastAddStreams, lastAddFrom, lastAddStep]
      | none =>
        by_cases hne : (env.parsedStreams.getD []).isEmpty
        · simp [hne, lastAddStreams, lastAddFrom, lastAddStep]
        · simp [hne, BroadcastStreamEvent, lastAddStreams, lastAddFrom, lastAddStep]
  | answer =>
    cases hsr : env.setRemoteErr with
    | none => simp [lastAddStreams, lastAddFrom, lastAddStep]
    | some e =>
      cases e with
      | ErrNoTransportEstablished => simp [lastAddStreams, lastAddFrom, lastAddStep]
      | ErrTransportExists => simp [lastAddStreams, lastAddFrom, lastAddStep]
      | ErrOfferIgnored => simp [lastAddStreams, lastAddFrom, lastAddStep]
      | other m => simp [lastAddStreams, lastAddFrom, lastAddStep]
  | pranswer => simp [lastAddStreams, lastAddFrom, lastAddStep]
  | rollback => simp [lastAddStreams, lastAddFrom, lastAddStep]
  | unknown => simp [lastAddStreams, lastAddFrom, lastAddStep]

theorem handleTrickle_streams (env : MediaEnv) (sess : SessState)
    (sigs : List UserId) (target : Nat) :
    (handleTrickle env sess sigs target).sess.streams = sess.streams ∧
    lastAddStreams (handleTrickle env sess sigs target).actions = none := by
  unfold handleTrickle
  cases hc : env.candidateOk with
  | false => simp [lastAddStreams, lastAddFrom, lastAddStep]
  | true =>
    cases ht : env.trickleErr with
    | none => simp [lastAddStreams, lastAddFrom, lastAddStep]
    | some e =>
      cases e with
      | ErrNoTransportEstablished => simp [lastAddStreams, lastAddFrom, lastAddStep]
      | ErrTransportExists => simp [lastAddStreams, lastAddFrom, lastAddStep]
      | ErrOfferIgnored => simp [lastAddStreams, lastAddFrom, lastAddStep]
      | other m => simp [lastAddStreams, lastAddFrom, lastAddStep]

theorem handleSubscription_broadcastFree (env : MediaEnv) (sess : SessState)
    (sigs : List UserId) (trackIds : List TrackId) (subscribe : Bool) :
    ∀ a ∈ (handleSubscription env sess sigs trackIds subscribe).actions,
      isBroadcastAct a = false := by
  intro a ha
  unfold handleSubscription at ha
  simp only [List.mem_append] at ha
  rcases ha with ha | ha
  · rcases mem_subscriptionActs env _ subscribe trackIds a ha with ⟨t, rfl⟩ | ⟨s, t, rfl⟩ <;> rfl
  · by_cases hne : (subscriptionActs env ((sess.session.map Prod.snd).getD "") subscribe trackIds).isEmpty
    · rw [if_pos hne] at ha
      simp at ha
    · rw [if_neg hne] at ha
      simp only [List.mem_cons, List.not_mem_nil, or_false] at ha
      subst ha; rfl

theorem handleSubscription_streams (env : MediaEnv) (sess : SessState)
    (sigs : List UserId) (trackIds : List TrackId) (subscribe : Bool) :
    (handleSubscription env sess sigs trackIds subscribe).sess.streams = sess.streams ∧
    lastAddStreams (handleSubscription env sess sigs trackIds subscribe).actions = none := by
  constructor
  · rfl
  · exact lastAddFrom_of_broadcastFree _
      (handleSubscription_broadcastFree env sess sigs trackIds subscribe) none

theorem stepMsg_streams (env : MediaEnv) (sess : SessState) (sigs : List UserId)
    (m : Inbound) :
    (stepMsg env sess sigs m).sess.streams =
      (lastAddStreams (stepMsg env sess sigs m).actions).getD sess.streams := by
  cases m with
  | join sid uid =>
    have h := handleJoin_streams env sess sigs sid uid
    simp [stepMsg, h.1, h.2]
  | desc t sdpType body =>
    exact handleDescription_streams env sess sigs body sdpType
  | trickleIn t c =>
    have h := handleTrickle_streams env sess sigs t
    simp [stepMsg, h.1, h.2]
  | subscription tids b =>
    have h := handleSubscription_streams env sess sigs tids b
    simp [stepMsg, h.1, h.2]

theorem stepRecv_spec (env : MediaEnv) (st : LoopState) (r : RecvResult) :
    removeBroadcasts (stepRecv env st r).1 = [] ∧
    (stepRecv env st r).2.1.sess.streams =
      (lastAddStreams (stepRecv env st r).1).getD st.sess.streams := by
  cases r with
  | eof => simp [stepRecv, removeBroadcasts, lastAddStreams, lastAddFrom, lastAddStep]
  | canceled => simp [stepRecv, removeBroadcasts, lastAddStreams, lastAddFrom, lastAddStep]
  | failure m => simp [stepRecv, removeBroadcasts, lastAddStreams, lastAddFrom, lastAddStep]
  | msg m =>
    have hok := stepMsg_actions_ok env st.sess st.sigs m
    have hst := stepMsg_streams env st.sess st.sigs m
    cases ho : (stepMsg env st.sess st.sigs m).outcome with
    | next =>
      simp only [stepRecv, ho]
      exact ⟨removeBroadcasts_of_msgActOK _ hok, hst⟩
    | terminate c =>
      simp only [stepRecv, ho]
      exact ⟨removeBroadcasts_of_msgActOK _ hok, hst⟩

theorem runLoop_spec :
    ∀ (trace : List (RecvResult × MediaEnv)) (st : LoopState),
      removeBroadcasts (runLoop trace st).1 = [] ∧
      (runLoop trace st).2.1.sess.streams =
        (lastAddStreams (runLoop trace st).1).getD st.sess.streams := by
  intro trace
  induction trace with
  | nil =>
    intro st
    simp [runLoop, removeBroadcasts, lastAddStreams, lastAddFrom]
  | cons p rest ih =>
    intro st
    obtain ⟨r, env⟩ := p
    have hs := stepRecv_spec env st r
    rcases hsr : stepRecv env st r with ⟨acts, st1, opt⟩
    rw [hsr] at hs
    cases opt with
    | some fs =>
      have hrl : runLoop ((r, env) :: rest) st = (acts, st1, fs) := by
        simp [runLoop, hsr]
      rw [hrl]
      exact hs
    | none =>
      have hrl : runLoop ((r, env) :: rest) st =
          (acts ++ (runLoop rest st1).1, (runLoop rest st1).2.1,
            (runLoop rest st1).2.2) := by
        simp [runLoop, hsr]
      rw [hrl]
      have ht := ih st1
      constructor
      · rw [removeBroadcasts_append, hs.1, ht.1]
        rfl
      · rw [lastAdd_append_getD, ← hs.2]
        exact ht.2

theorem cleanup_sess (st : LoopState) : (cleanup st).2.sess = st.sess := by
  unfold cleanup
  cases hx : st.sess.session with
  | none => rfl
  | some su => rfl

theorem cleanup_unregister (st : LoopState) (sid : SessionId) (uid : UserId)
    (h : st.sess.session = some (sid, uid)) :
    Action.unregister uid ∈ (cleanup st).1 := by
  unfold cleanup
  rw [h]
  by_cases he : st.sess.streams.isEmpty <;> simp [he]

theorem cleanup_lastAdd (st : LoopState) : lastAddStreams (cleanup st).1 = none := by
  unfold cleanup
  cases hx : st.sess.session with
  | none => rfl
  | some su =>
    by_cases he : st.sess.streams.isEmpty <;>
      simp [he, lastAddStreams, lastAddFrom, lastAddStep, BroadcastStreamEvent]

theorem lastAdd_append_of_right_none (l1 l2 : List Action)
    (h : lastAddStreams l2 = none) :
    lastAddStreams (l1 ++ l2) = lastAddStreams l1 := by
  unfold lastAddStreams at h ⊢
  rw [lastAddFrom_append, lastAddFrom_acc l2 (lastAddFrom none l1), h]

theorem Signal_eq_of_term (trace : List (RecvResult × MediaEnv)) (st0 : LoopState)
    (h : (runLoop trace st0).2.2 ≠ FinalStatus.stillRunning) :
    Signal trace st0 =
      ((runLoop trace st0).1 ++ (cleanup (runLoop trace st0).2.1).1,
       (cleanup (runLoop trace st0).2.1).2,
       (runLoop trace st0).2.2) := by
  unfold Signal
  cases hf : (runLoop trace st0).2.2 with
  | stillRunning => exact absurd hf h
  | clean => simp [hf]
  | transportErr m => simp [hf]
  | grpcErr c => simp [hf]

theorem Signal_stillRunning_of (trace : List (RecvResult × MediaEnv)) (st0 : LoopState)
    (h : (runLoop trace st0).2.2 = FinalStatus.stillRunning) :
    (Signal trace st0).2.2 = FinalStatus.stillRunning := by
  unfold Signal
  simp [h]

/-- Track t1 in stream s1, published by participant B. -/
def trackB : PublisherTrack := ⟨"t1", "s1", "audio", "r1", "t1"⟩

/-- Participant B with one published track. -/
def peerB : PeerInfo := ⟨"B", [trackB]⟩

/-- The wire stream extracted from an offer of participant A. -/
def streamS1 : Stream := ⟨"A", "s1", [⟨"t1", "audio", false, "r1"⟩]⟩

/-- Session state of participant A after a successful Join in room r. -/
def sessJoinedA : SessState := ⟨some ("r", "A"), []⟩

/-- Oracle for an offer step whose SDP yields stream s1. -/
def envOfferS1 : MediaEnv := { envBase with parsedStreams := some [streamS1] }

/-- Trace: A joins room r, then sends an offer yielding stream s1. -/
def traceAJoinOffer : List (RecvResult × MediaEnv) :=
  [(RecvResult.msg (Inbound.join "r" "A"), envBase),
   (RecvResult.msg (Inbound.desc Target.PUBLISHER "offer" "sdp-offer"), envOfferS1)]

/-- C1, counterexample: with B already registered, A joins (registering
its own sink) and sends an offer yielding stream s1; the resulting ADD
broadcast is delivered to the recipient set ["B", "A"], which contains
A itself — so the broadcast IS sent to A's own sink, refuting the
claim's exclusion of the originator. -/
theorem C1_broadcast_includes_self_cex :
    Action.broadcast ⟨StreamSt.ADD, [streamS1]⟩ ["B", "A"] ∈
      (SignalHandler traceAJoinOffer ["B"]).1 ∧
    ("A" : UserId) ∈ (["B", "A"] : List UserId) := by decide

/-- C1, amended: the StreamEvent(ADD) broadcast triggered by a
successful offer is sent to every sink registered in the broadcaster at
that moment — including the originating session's own sink, which was
registered at Join — excluding none. -/
theorem C1_offer_broadcast_to_all_sinks
    (env : MediaEnv) (sess : SessState) (sigs : List UserId)
    (body ans : String) (ns : List Stream)
    (ha : env.answerResult = Except.ok ans)
    (hs : env.sendErr 0 = none)
    (hp : env.parsedStreams = some ns)
    (hne : ns ≠ []) :
    Action.broadcast ⟨StreamSt.ADD, ns⟩ sigs ∈
      (handleDescription env sess sigs body "offer").actions := by
  have hty : NewSDPType "offer" = SDPType.offer := rfl
  cases ns with
  | nil => exact absurd rfl hne
  | cons s0 rest =>
    simp [handleDescription, hty, ha, hs, hp, BroadcastStreamEvent]

/-- C1 witness: the amended theorem applied at the concrete offer of A
with sinks ["B", "A"] registered. -/
theorem C1_offer_broadcast_to_all_sinks_witness :
    Action.broadcast ⟨StreamSt.ADD, [streamS1]⟩ ["B", "A"] ∈
      (handleDescription envOfferS1 sessJoinedA ["B", "A"] "sdp-offer" "offer").actions :=
  C1_offer_broadcast_to_all_sinks envOfferS1 sessJoinedA ["B", "A"] "sdp-offer"
    "answer-sdp" [streamS1] rfl rfl rfl (by decide)

/-- C2: when A joins a room where B publishes stream s1, the snapshot
stream sent to A carries `Uid = "A"` (the joining participant), not
`"B"` (the publisher) — the code labels every snapshot stream with the
joiner's uid, contradicting the owner-identifier reading of the field. -/
theorem C2_snapshot_uid_is_joiner :
    snapshotStreams "A" [peerB] =
      [{ Uid := "A", Msid := "s1", Tracks := [⟨"t1", "audio", false, "r1"⟩] }] ∧
    peerB.pid = "B" ∧ ("A" : UserId) ≠ "B" := by decide

/-- Oracle for a trickle step rejected with no transport established. -/
def envTrickleNoTransport : MediaEnv :=
  { envBase with trickleErr := some SFUError.ErrNoTransportEstablished }

/-- C3, counterexample: a parsed Trickle whose forwarding fails with
"no transport established" answers with error code InternalError, not
UnsupportedMediaType as claimed. -/
theorem C3_trickle_error_code_cex :
    errorCodesSent (handleTrickle envTrickleNoTransport sessJoinedA ["A"] 0).actions =
      [ErrorCode.InternalError] ∧
    ErrorCode.InternalError ≠ ErrorCode.UnsupportedMediaType ∧
    (handleTrickle envTrickleNoTransport sessJoinedA ["A"] 0).outcome = Outcome.next := by
  decide

/-- C3, amended: for every Trickle whose candidate parses but whose
forwarding fails with "no transport established", the Error message
sent back carries code InternalError, and the connection stays open
(the loop continues). -/
theorem C3_trickle_no_transport_internal_error
    (env : MediaEnv) (sess : SessState) (sigs : List UserId) (target : Nat)
    (hc : env.candidateOk = true)
    (ht : env.trickleErr = some SFUError.ErrNoTransportEstablished)
    (hs : env.sendErr 0 = none) :
    (handleTrickle env sess sigs target).actions =
      [Action.peerTrickle target,
       Action.send (Outbound.errorMsg ErrorCode.InternalError "trickle error") true] ∧
    (handleTrickle env sess sigs target).outcome = Outcome.next := by
  simp [handleTrickle, hc, ht, hs]

/-- C3 witness: the amended theorem at the concrete no-transport
trickle. -/
theorem C3_trickle_no_transport_internal_error_witness :
    (handleTrickle envTrickleNoTransport sessJoinedA ["A"] 0).actions =
      [Action.peerTrickle 0,
       Action.send (Outbound.errorMsg ErrorCode.InternalError "trickle error") true] ∧
    (handleTrickle envTrickleNoTransport sessJoinedA ["A"] 0).outcome = Outcome.next :=
  C3_trickle_no_transport_internal_error envTrickleNoTransport sessJoinedA ["A"] 0
    rfl rfl rfl

/-- Oracle in which every send on the own connection fails. -/
def envSendsFail : MediaEnv := { envBase with sendErr := fun _ => some "sink closed" }

/-- C4, counterexample: with a successful Media-Engine join but a sink
on which every send fails, the handler still registers the sink and
continues the loop — the failed Reply and snapshot sends are ignored,
refuting the claimed stream-terminating internal error. -/
theorem C4_join_send_failure_continues_cex :
    (handleJoin envSendsFail ⟨none, []⟩ [] "r" "A").outcome = Outcome.next ∧
    Action.send (Outbound.reply true) false ∈
      (handleJoin envSendsFail ⟨none, []⟩ [] "r" "A").actions ∧
    Action.send (Outbound.streamEvent ⟨StreamSt.ADD, []⟩) false ∈
      (handleJoin envSendsFail ⟨none, []⟩ [] "r" "A").actions ∧
    Action.register "A" ∈ (handleJoin envSendsFail ⟨none, []⟩ [] "r" "A").actions := by
  decide

/-- C4, amended: on a successful Media-Engine join the handler ignores
the results of the Reply(success=true) and initial snapshot sends: for
every send oracle — including all-failing sinks — it registers the sink
and continues the message loop. -/
theorem C4_join_send_results_ignored
    (env : MediaEnv) (sess : SessState) (sigs : List UserId)
    (sid : SessionId) (uid : UserId) (h : env.joinErr = none) :
    (handleJoin env sess sigs sid uid).outcome = Outcome.next ∧
    Action.register uid ∈ (handleJoin env sess sigs sid uid).actions := by
  simp [handleJoin, h, joinBody]

/-- C4 witness: the amended theorem at the all-failing sink. -/
theorem C4_join_send_results_ignored_witness :
    (handleJoin envSendsFail ⟨none, []⟩ [] "r" "A").outcome = Outcome.next ∧
    Action.register "A" ∈ (handleJoin envSendsFail ⟨none, []⟩ [] "r" "A").actions :=
  C4_join_send_results_ignored envSendsFail ⟨none, []⟩ [] "r" "A" rfl

/-- Oracle whose Media-Engine join fails with an unclassified error. -/
def envJoinBoom : MediaEnv := { envBase with joinErr := some (SFUError.other "boom") }

/-- C5, counterexample: an unrecognized join failure terminates the
stream with gRPC status Unknown, not the claimed internal failure. -/
theorem C5_join_unrecognized_unknown_cex :
    (handleJoin envJoinBoom ⟨none, []⟩ [] "r" "A").outcome =
      Outcome.terminate StatusCode.Unknown ∧
    Outcome.terminate StatusCode.Unknown ≠ Outcome.terminate StatusCode.Internal := by
  decide

/-- C5, amended: for every Join whose Media-Engine join fails with an
error other than "transport exists" or "offer ignored", the handler
terminates the stream reporting the Unknown (unclassified) status to
the caller, performing no further actions. -/
theorem C5_join_unrecognized_terminates_unknown
    (env : MediaEnv) (sess : SessState) (sigs : List UserId)
    (sid : SessionId) (uid : UserId) (e : SFUError)
    (h : env.joinErr = some e)
    (h1 : e ≠ SFUError.ErrTransportExists)
    (h2 : e ≠ SFUError.ErrOfferIgnored) :
    (handleJoin env sess sigs sid uid).outcome = Outcome.terminate StatusCode.Unknown ∧
    (handleJoin env sess sigs sid uid).actions = [Action.peerJoin sid uid] := by
  simp [handleJoin, h, h1, h2]

/-- C5 witness: the amended theorem at the unclassified join failure. -/
theorem C5_join_unrecognized_terminates_unknown_witness :
    (handleJoin envJoinBoom ⟨none, []⟩ [] "r" "A").outcome =
      Outcome.terminate StatusCode.Unknown ∧
    (handleJoin envJoinBoom ⟨none, []⟩ [] "r" "A").actions =
      [Action.peerJoin "r" "A"] :=
  C5_join_unrecognized_terminates_unknown envJoinBoom ⟨none, []⟩ [] "r" "A"
    (SFUError.other "boom") rfl (by decide) (by decide)

/-- Oracle whose Media-Engine answer operation fails fatally. -/
def envAnswerFail : MediaEnv :=
  { envBase with answerResult := Except.error (SFUError.other "answer failed") }

/-- Trace: A joins, then an offer whose answer fails fatally. -/
def traceC6 : List (RecvResult × MediaEnv) :=
  [(RecvResult.msg (Inbound.join "r" "A"), envBase),
   (RecvResult.msg (Inbound.desc Target.PUBLISHER "offer" "sdp-offer"), envAnswerFail)]

/-- C6, counterexample: when the loop terminates because the answer to
an offer fails fatally (gRPC status Internal), no `peer.Close()` is
performed — the close happens only in the `Recv`-error path — refuting
that the Media-Engine peer is closed on every termination. -/
theorem C6_fatal_error_no_peer_close_cex :
    Action.peerClose ∉ (SignalHandler traceC6 []).1 ∧
    (SignalHandler traceC6 []).2.2 = FinalStatus.grpcErr StatusCode.Internal := by
  decide

/-- C6, amended: the peer is closed exactly on terminations caused by a
failed `Recv` (read error, end-of-stream, cancellation) and never by a
message step; independently, on every actual termination whose final
state has an established session, the Session is removed from the
broadcaster before the handler returns. -/
theorem C6_termination_cleanup :
    (∀ (env : MediaEnv) (st : LoopState) (em : String),
      Action.peerClose ∈ (stepRecv env st RecvResult.eof).1 ∧
      Action.peerClose ∈ (stepRecv env st RecvResult.canceled).1 ∧
      Action.peerClose ∈ (stepRecv env st (RecvResult.failure em)).1) ∧
    (∀ (env : MediaEnv) (st : LoopState) (m : Inbound),
      Action.peerClose ∉ (stepRecv env st (RecvResult.msg m)).1) ∧
    (∀ (trace : List (RecvResult × MediaEnv)) (sigs0 : List UserId)
        (sid : SessionId) (uid : UserId),
      (SignalHandler trace sigs0).2.2 ≠ FinalStatus.stillRunning →
      (SignalHandler trace sigs0).2.1.sess.session = some (sid, uid) →
      Action.unregister uid ∈ (SignalHandler trace sigs0).1) := by
  refine ⟨?_, ?_, ?_⟩
  · intro env st em
    refine ⟨?_, ?_, ?_⟩ <;> simp [stepRecv]
  · intro env st m hmem
    have h1 : (stepRecv env st (RecvResult.msg m)).1 =
        (stepMsg env st.sess st.sigs m).actions := by
      cases ho : (stepMsg env st.sess st.sigs m).outcome <;> simp [stepRecv, ho]
    rw [h1] at hmem
    have hok := stepMsg_actions_ok env st.sess st.sigs m Action.peerClose hmem
    simp [msgActOK] at hok
  · intro trace sigs0 sid uid hterm hsess
    have hrt : (runLoop trace ⟨⟨none, []⟩, sigs0⟩).2.2 ≠ FinalStatus.stillRunning := by
      intro hx
      exact hterm (Signal_stillRunning_of trace _ hx)
    unfold SignalHandler at hsess ⊢
    rw [Signal_eq_of_term trace _ hrt] at hsess ⊢
    rw [cleanup_sess] at hsess
    exact List.mem_append_right _ (cleanup_unregister _ sid uid hsess)

/-- C6 witness: instances of the three parts — close on end-of-stream,
no close on a message step, and unregistration on the fatal-error
termination of `traceC6`. -/
theorem C6_termination_cleanup_witness :
    Action.peerClose ∈ (stepRecv envBase ⟨⟨none, []⟩, []⟩ RecvResult.eof).1 ∧
    Action.peerClose ∉ (stepRecv envBase ⟨⟨none, []⟩, []⟩
        (RecvResult.msg (Inbound.join "r" "A"))).1 ∧
    Action.unregister "A" ∈ (SignalHandler traceC6 []).1 :=
  ⟨(C6_termination_cleanup.1 envBase ⟨⟨none, []⟩, []⟩ "x").1,
   C6_termination_cleanup.2.1 envBase ⟨⟨none, []⟩, []⟩ (Inbound.join "r" "A"),
   C6_termination_cleanup.2.2 traceC6 [] "r" "A" (by decide) (by decide)⟩

/-- C7 (confirmed): whenever the handler actually terminates, every
stream list broadcast as REMOVE equals the stream list most recently
broadcast as ADD during this session, and a session that never
broadcast an ADD broadcasts no REMOVE. -/
theorem C7_remove_matches_last_add
    (trace : List (RecvResult × MediaEnv)) (sigs0 : List UserId)
    (hterm : (SignalHandler trace sigs0).2.2 ≠ FinalStatus.stillRunning) :
    (∀ ss ∈ removeBroadcasts (SignalHandler trace sigs0).1,
      lastAddStreams (SignalHandler trace sigs0).1 = some ss) ∧
    (lastAddStreams (SignalHandler trace sigs0).1 = none →
      removeBroadcasts (SignalHandler trace sigs0).1 = []) := by
  have hrt : (runLoop trace ⟨⟨none, []⟩, sigs0⟩).2.2 ≠ FinalStatus.stillRunning := by
    intro hx
    exact hterm (Signal_stillRunning_of trace _ hx)
  unfold SignalHandler
  rw [Signal_eq_of_term trace _ hrt]
  have hr := runLoop_spec trace ⟨⟨none, []⟩, sigs0⟩
  set R := runLoop trace ⟨⟨none, []⟩, sigs0⟩ with hRdef
  have hadd : lastAddStreams (R.1 ++ (cleanup R.2.1).1) = lastAddStreams R.1 :=
    lastAdd_append_of_right_none _ _ (cleanup_lastAdd R.2.1)
  have hrem : removeBroadcasts (R.1 ++ (cleanup R.2.1).1) =
      removeBroadcasts (cleanup R.2.1).1 := by
    rw [removeBroadcasts_append, hr.1, List.nil_append]
  have hstreams : R.2.1.sess.streams = (lastAddStreams R.1).getD [] := hr.2
  show (∀ ss ∈ removeBroadcasts (R.1 ++ (cleanup R.2.1).1),
      lastAddStreams (R.1 ++ (cleanup R.2.1).1) = some ss) ∧
    (lastAddStreams (R.1 ++ (cleanup R.2.1).1) = none →
      removeBroadcasts (R.1 ++ (cleanup R.2.1).1) = [])
  rw [hadd, hrem]
  cases hx : R.2.1.sess.session with
  | none =>
    have hc : (cleanup R.2.1).1 = [] := by
      unfold cleanup
      rw [hx]
    rw [hc]
    exact ⟨fun ss hss => absurd hss (List.not_mem_nil ss), fun _ => rfl⟩
  | some su =>
    by_cases he : R.2.1.sess.streams.isEmpty
    · have hc : (cleanup R.2.1).1 = [Action.unregister su.2] := by
        unfold cleanup
        rw [hx]
        simp [he]
      rw [hc]
      exact ⟨fun ss hss => by simp [removeBroadcasts] at hss, fun _ => rfl⟩
    · have hc : (cleanup R.2.1).1 =
          [Action.unregister su.2,
           Action.broadcast ⟨StreamSt.REMOVE, R.2.1.sess.streams⟩ (R.2.1.sigs.erase su.2)] := by
        unfold cleanup
        rw [hx]
        simp [he, BroadcastStreamEvent]
      rw [hc]
      have hrc : removeBroadcasts
          [Action.unregister su.2,
           Action.broadcast ⟨StreamSt.REMOVE, R.2.1.sess.streams⟩ (R.2.1.sigs.erase su.2)] =
          [R.2.1.sess.streams] := rfl
      rw [hrc]
      have hne : R.2.1.sess.streams ≠ [] := by
        intro hnil
        rw [hnil] at he
        exact he rfl
      cases hla : lastAddStreams R.1 with
      | none =>
        rw [hla] at hstreams
        exact absurd hstreams hne
      | some s =>
        rw [hla] at hstreams
        simp only [Option.getD_some] at hstreams
        constructor
        · intro ss hss
          rw [List.mem_singleton] at hss
          rw [hss, hstreams]
        · intro hcontra
          exact Option.noConfusion hcontra

/-- C7 witness: the theorem at the join-offer-eof trace, whose
termination broadcasts REMOVE of exactly the streams last ADDed. -/
theorem C7_remove_matches_last_add_witness :
    (∀ ss ∈ removeBroadcasts
        (SignalHandler (traceAJoinOffer ++ [(RecvResult.eof, envBase)]) ["B"]).1,
      lastAddStreams
        (SignalHandler (traceAJoinOffer ++ [(RecvResult.eof, envBase)]) ["B"]).1 = some ss) ∧
    (lastAddStreams
        (SignalHandler (traceAJoinOffer ++ [(RecvResult.eof, envBase)]) ["B"]).1 = none →
      removeBroadcasts
        (SignalHandler (traceAJoinOffer ++ [(RecvResult.eof, envBase)]) ["B"]).1 = []) :=
  C7_remove_matches_last_add (traceAJoinOffer ++ [(RecvResult.eof, envBase)]) ["B"]
    (by decide)

/-- C8 (confirmed): on a successful Media-Engine join, the handler's
actions are exactly: the join call, the Reply(success=true) send, the
initial snapshot send, and only then the registration of the sink in
the broadcaster — so the sink cannot observe an ADD broadcast before
the snapshot was sent. -/
theorem C8_register_after_join_sends
    (env : MediaEnv) (sess : SessState) (sigs : List UserId)
    (sid : SessionId) (uid : UserId) (h : env.joinErr = none) :
    (handleJoin env sess sigs sid uid).actions =
      [Action.peerJoin sid uid,
       Action.send (Outbound.reply true) (env.sendErr 0).isNone,
       Action.send (Outbound.streamEvent ⟨StreamSt.ADD, snapshotStreams uid env.peers⟩)
         (env.sendErr 1).isNone,
       Action.register uid] := by
  simp [handleJoin, h, joinBody]

/-- C8 witness: the theorem at a concrete join into an empty room. -/
theorem C8_register_after_join_sends_witness :
    (handleJoin envBase ⟨none, []⟩ [] "r" "A").actions =
      [Action.peerJoin "r" "A",
       Action.send (Outbound.reply true) true,
       Action.send (Outbound.streamEvent ⟨StreamSt.ADD, []⟩) true,
       Action.register "A"] :=
  (C8_register_after_join_sends envBase ⟨none, []⟩ [] "r" "A" rfl).trans (by decide)

/-- C9 (confirmed): Subscription processing is batched — one negotiate
call if at least one requested track matches a published track of
another participant, an empty action list if none does, and
unsubscription of tracks not currently forwarded is a complete no-op. -/
theorem C9_subscription_batched_negotiation
    (env : MediaEnv) (sess : SessState) (sigs : List UserId)
    (trackIds : List TrackId) (sid0 : SessionId) (selfId : UserId)
    (hsess : sess.session = some (sid0, selfId)) :
    ((∃ tid ∈ trackIds, ∃ p ∈ env.peers, p.pid ≠ selfId ∧
        ∃ tr ∈ p.tracks, tr.receiverTrackId = tid) →
      (handleSubscription env sess sigs trackIds true).actions.count Action.negotiate = 1) ∧
    ((¬ ∃ tid ∈ trackIds, ∃ p ∈ env.peers, p.pid ≠ selfId ∧
        ∃ tr ∈ p.tracks, tr.receiverTrackId = tid) →
      (handleSubscription env sess sigs trackIds true).actions = []) ∧
    ((∀ tid ∈ trackIds, ∀ e ∈ env.downTracks, ∀ dt ∈ e.2, dt ≠ tid) →
      (handleSubscription env sess sigs trackIds false).actions = [] ∧
      (handleSubscription env sess sigs trackIds false).outcome = Outcome.next ∧
      (handleSubscription env sess sigs trackIds false).sess = sess) := by
  have hself : ((sess.session.map Prod.snd).getD "") = selfId := by
    rw [hsess]
    rfl
  refine ⟨?_, ?_, ?_⟩
  · intro hex
    obtain ⟨tid, htid, p, hp, hps, tr, htr, heq⟩ := hex
    have hpa : peerAdds selfId tid env.peers ≠ [] := by
      intro hnil
      rw [peerAdds_eq_nil] at hnil
      exact (hnil p hp hps tr htr) heq
    have hsub : subscriptionActs env selfId true trackIds ≠ [] := by
      intro hnil
      rw [subscriptionActs_true_eq_nil] at hnil
      exact hpa (hnil tid htid)
    have hnn : Action.negotiate ∉ subscriptionActs env selfId true trackIds := by
      intro hmem
      rcases mem_subscriptionActs env selfId true trackIds _ hmem with ⟨t, ht⟩ | ⟨s, t, ht⟩ <;>
        simp at ht
    have hie : (subscriptionActs env selfId true trackIds).isEmpty = false := by
      cases hsx : subscriptionActs env selfId true trackIds with
      | nil => exact absurd hsx hsub
      | cons a l => rfl
    simp [handleSubscription, hself, hie, List.count_append,
      List.count_eq_zero_of_not_mem hnn]
  · intro hnex
    have hsub : subscriptionActs env selfId true trackIds = [] := by
      rw [subscriptionActs_true_eq_nil]
      intro tid htid
      rw [peerAdds_eq_nil]
      intro p hp hps tr htr heq
      exact hnex ⟨tid, htid, p, hp, hps, tr, htr, heq⟩
    simp [handleSubscription, hself, hsub]
  · intro hnf
    have hsub : subscriptionActs env selfId false trackIds = [] := by
      rw [subscriptionActs_false_eq_nil]
      intro tid htid
      rw [downTrackRemoves_eq_nil]
      intro e he dt hdt
      exact hnf tid htid e he dt hdt
    simp [handleSubscription, hself, hsub]

/-- Oracle with B publishing one track (receiver track id t1). -/
def envSubB : MediaEnv := { envBase with peers := [peerB] }

/-- C9 witness: subscribing to the matching track t1 negotiates once;
unsubscribing from the unforwarded track t9 is a no-op. -/
theorem C9_subscription_batched_negotiation_witness :
    (handleSubscription envSubB sessJoinedA ["A"] ["t1"] true).actions.count
      Action.negotiate = 1 ∧
    (handleSubscription envSubB sessJoinedA ["A"] ["t9"] false).actions = [] :=
  ⟨(C9_subscription_batched_negotiation envSubB sessJoinedA ["A"] ["t1"] "r" "A" rfl).1
      (by decide),
   ((C9_subscription_batched_negotiation envSubB sessJoinedA ["A"] ["t9"] "r" "A" rfl).2.2
      (by decide)).1⟩

/-- C10 (confirmed): an inbound Description whose sdp type string is
neither "offer" nor "answer" produces no action at all (no Media-Engine
call, no send), leaves the state unchanged, and continues the loop. -/
theorem C10_unknown_sdp_type_noop
    (env : MediaEnv) (sess : SessState) (sigs : List UserId)
    (body : String) (sdpType : String)
    (h1 : sdpType ≠ "offer") (h2 : sdpType ≠ "answer") :
    handleDescription env sess sigs body sdpType =
      { actions := [], sess := sess, sigs := sigs, outcome := Outcome.next } := by
  unfold handleDescription NewSDPType
  rw [if_neg h1]
  by_cases h3 : sdpType = "pranswer"
  · rw [if_pos h3]
  · rw [if_neg h3, if_neg h2]
    by_cases h4 : sdpType = "rollback"
    · rw [if_pos h4]
    · rw [if_neg h4]

/-- C10 witness: the theorem at the concrete sdp type "pranswer". -/
theorem C10_unknown_sdp_type_noop_witness :
    handleDescription envBase ⟨none, []⟩ [] "sdp-body" "pranswer" =
      { actions := [], sess := ⟨none, []⟩, sigs := [], outcome := Outcome.next } :=
  C10_unknown_sdp_type_noop envBase ⟨none, []⟩ [] "sdp-body" "pranswer"
    (by decide) (by decide)

end IonSFU
